import Mathlib

/-
Verification development for the boltzgen_mcp job-queue scheduler.

Shallow embedding of the GPU-aware job queue (src/src/jobs/queue.py), the
queue-facing helpers (src/src/jobs/manager.py) and the MCP tool layer
(src/src/tools/boltzgen_design.py).  Python dicts are modelled as
association lists (insertion-ordered, as in CPython), Python sets as
duplicate-free lists, datetime.now() / uuid / os.pid values as explicit
parameters, and the filesystem (metadata.json files, queue_state.json) as
explicit components of the queue state.  Subprocess exit observation is a
parameter poll : String -> Option Int giving, per job id, the return code
of its child process if that process has exited.
-/

/-! ## Association-list primitives (model of Python dict) -/

/-- Lookup in an insertion-ordered association list (Python `d[k]` / `k in d`). -/
def lookupKey {α : Type} (l : List (String × α)) (k : String) : Option α :=
  match l with
  | [] => none
  | kv :: t => if kv.1 = k then some kv.2 else lookupKey t k

/-- Update-or-append, Python `d[k] = v` semantics (existing key keeps position,
new key goes to the end). -/
def setKey {α : Type} (l : List (String × α)) (k : String) (v : α) : List (String × α) :=
  match l with
  | [] => [(k, v)]
  | kv :: t => if kv.1 = k then (k, v) :: t else kv :: setKey t k v

/-- Removal of a key, Python `d.pop(k, None)` semantics. -/
def removeKey {α : Type} (l : List (String × α)) (k : String) : List (String × α) :=
  match l with
  | [] => []
  | kv :: t => if kv.1 = k then removeKey t k else kv :: removeKey t k

/-- The key list of an association list, in insertion order. -/
def keysOf {α : Type} (l : List (String × α)) : List String :=
  l.map Prod.fst

/-- Remove the first occurrence of an element, Python `list.remove` with the
ValueError swallowed. -/
def eraseFirst (l : List String) (x : String) : List String :=
  match l with
  | [] => []
  | a :: t => if a = x then t else a :: eraseFirst t x

/-- Zero-based index of the first occurrence, Python `list.index` with the
ValueError mapped to none. -/
def idxOf (l : List String) (x : String) : Option Nat :=
  match l with
  | [] => none
  | a :: t => if a = x then some 0 else (idxOf t x).map (· + 1)

@[simp] theorem lookupKey_nil {α : Type} (k : String) :
    lookupKey ([] : List (String × α)) k = none := rfl

@[simp] theorem lookupKey_cons {α : Type} (kv : String × α) (t : List (String × α)) (k : String) :
    lookupKey (kv :: t) k = if kv.1 = k then some kv.2 else lookupKey t k := rfl

@[simp] theorem lookupKey_setKey_self {α : Type} (l : List (String × α)) (k : String) (v : α) :
    lookupKey (setKey l k v) k = some v := by
  induction l with
  | nil => simp [setKey]
  | cons a t ih =>
    by_cases h : a.1 = k
    · simp [setKey, h]
    · simp [setKey, h, ih]

theorem lookupKey_setKey_ne {α : Type} (l : List (String × α)) {k k' : String} (v : α)
    (h : k' ≠ k) : lookupKey (setKey l k v) k' = lookupKey l k' := by
  induction l with
  | nil => simp [setKey, Ne.symm h]
  | cons a t ih =>
    by_cases ha : a.1 = k
    · subst ha
      simp [setKey, Ne.symm h]
    · simp [setKey, ha, ih]

@[simp] theorem keysOf_nil {α : Type} : keysOf ([] : List (String × α)) = [] := rfl

@[simp] theorem keysOf_cons {α : Type} (kv : String × α) (t : List (String × α)) :
    keysOf (kv :: t) = kv.1 :: keysOf t := rfl

theorem mem_keysOf_of_mem {α : Type} {l : List (String × α)} {kv : String × α}
    (h : kv ∈ l) : kv.1 ∈ keysOf l := by
  simpa [keysOf] using List.mem_map_of_mem Prod.fst h

theorem mem_keysOf_of_lookupKey_isSome {α : Type} {l : List (String × α)} {k : String}
    (h : (lookupKey l k).isSome) : k ∈ keysOf l := by
  induction l with
  | nil => simp at h
  | cons a t ih =>
    by_cases ha : a.1 = k
    · simp [ha]
    · simp only [lookupKey_cons, ha, if_false] at h
      simp [ih h]

theorem lookupKey_isSome_of_mem {α : Type} {l : List (String × α)} {k : String} {v : α}
    (h : (k, v) ∈ l) : (lookupKey l k).isSome := by
  induction l with
  | nil => cases h
  | cons a t ih =>
    rcases List.mem_cons.mp h with h | h
    · subst h; simp
    · by_cases ha : a.1 = k
      · simp [ha]
      · simpa [ha] using ih h

theorem not_mem_keysOf_removeKey {α : Type} (l : List (String × α)) (k : String) :
    k ∉ keysOf (removeKey l k) := by
  induction l with
  | nil => simp [removeKey]
  | cons a t ih =>
    by_cases h : a.1 = k
    · simpa [removeKey, h] using ih
    · simp only [removeKey, h, if_false, keysOf_cons, List.mem_cons]
      rintro (rfl | hmem)
      · exact h rfl
      · exact ih hmem

theorem mem_keysOf_removeKey {α : Type} {l : List (String × α)} {k k' : String}
    (h : k' ∈ keysOf (removeKey l k)) : k' ∈ keysOf l := by
  induction l with
  | nil => simp [removeKey] at h
  | cons a t ih =>
    by_cases ha : a.1 = k
    · simp only [removeKey, ha, if_true] at h
      simp [ih h]
    · simp only [removeKey, ha, if_false, keysOf_cons, List.mem_cons] at h ⊢
      rcases h with h | h
      · exact Or.inl h
      · exact Or.inr (ih h)

theorem setKey_length_le {α : Type} (l : List (String × α)) (k : String) (v : α) :
    (setKey l k v).length ≤ l.length + 1 := by
  induction l with
  | nil => simp [setKey]
  | cons a t ih =>
    by_cases h : a.1 = k
    · simp [setKey, h]
    · simp only [setKey, h, if_false, List.length_cons]
      omega

/-! ## Python argument values and command construction

Models `JobQueue._start_job`'s command-building loop (queue.py lines 578-591).
`PyValue` covers the value kinds that occur in job args in this repository:
none, booleans, strings and integers. -/

inductive PyValue where
  | none
  | bool (b : Bool)
  | str (s : String)
  | int (n : Int)
deriving DecidableEq

/-- Python str() on the non-bool, non-none values used in argv. -/
def pyStr : PyValue → String
  | .none => "None"
  | .bool true => "True"
  | .bool false => "False"
  | .str s => s
  | .int n => toString n

/-- The flag encoding of one (name, value) pair as performed by the loop in
`_start_job`: skip none, emit "--name" alone for boolean true, skip boolean
false, and emit "--name", str(value) otherwise. -/
def encodeArg (kv : String × PyValue) : List String :=
  match kv.2 with
  | .none => []
  | .bool true => ["--" ++ kv.1]
  | .bool false => []
  | v => ["--" ++ kv.1, pyStr v]

/-- The argv built by `JobQueue._start_job` (queue.py lines 579-591):
cmd = ["python", job.script_path] followed by the encoded args in
insertion order. -/
def build_command (script_path : String) (args : List (String × PyValue)) : List String :=
  "python" :: script_path :: args.flatMap encodeArg

/-- Modelled from the spec: the command construction as section 4.3 words it,
"Command = [script_path, (for each arg in record.args in insertion order)
--name, str(value) unless value is boolean; boolean-true emits --name alone;
boolean-false and none are omitted]".  Used only to compare the spec's claim
against build_command. -/
def spec_command (script_path : String) (args : List (String × PyValue)) : List String :=
  script_path :: args.flatMap (fun kv =>
    match kv.2 with
    | .none => []
    | .bool true => ["--" ++ kv.1]
    | .bool false => []
    | v => ["--" ++ kv.1, pyStr v])

/-! ## GPU pool (class GPUPool, queue.py lines 52-116) -/

structure GPUPool where
  gpu_ids : List String
  /-- Model of the Python set `_available`: duplicate-free list. -/
  available : List String
  /-- Model of the Python dict `_in_use`: gpu_id -> job_id. -/
  in_use : List (String × String)
deriving DecidableEq

/-- GPUPool.__init__: `self.gpu_ids = gpu_ids or detect_gpus()` (falsy empty
list falls back to detection), `_available = set(gpu_ids)`, `_in_use = {}`. -/
def GPUPool.init (gpu_ids : Option (List String)) (detected : List String) : GPUPool :=
  let ids := match gpu_ids with
    | some l => if l.isEmpty then detected else l
    | none => detected
  { gpu_ids := ids, available := ids.dedup, in_use := [] }

/-- GPUPool.acquire: pop an arbitrary free device (modelled as the list head,
a deterministic choice of the Python set.pop), record it in `_in_use`. -/
def GPUPool.acquire (p : GPUPool) (job_id : String) : GPUPool × Option String :=
  match p.available with
  | [] => (p, none)
  | g :: rest =>
    ({ p with available := rest, in_use := setKey p.in_use g job_id }, some g)

/-- GPUPool.release: if the device is held, drop it from `_in_use` and add it
back to the `_available` set; otherwise do nothing (idempotent on unknown
ids). -/
def GPUPool.release (p : GPUPool) (gpu_id : String) : GPUPool :=
  if (lookupKey p.in_use gpu_id).isSome then
    { p with
      in_use := removeKey p.in_use gpu_id,
      available := if gpu_id ∈ p.available then p.available else gpu_id :: p.available }
  else p

/-- An acquire or release call on the pool, for reasoning over arbitrary
operation sequences. -/
inductive PoolOp where
  | acquire (job_id : String)
  | release (gpu_id : String)

def applyPoolOp (p : GPUPool) : PoolOp → GPUPool
  | .acquire jid => (p.acquire jid).1
  | .release g => p.release g

def applyPoolOps (p : GPUPool) (ops : List PoolOp) : GPUPool :=
  ops.foldl applyPoolOp p

/-- The well-formedness the pool maintains: free and held keys partition the
full device set, and both carriers are duplicate-free. -/
def PoolInv (p : GPUPool) : Prop :=
  p.available.toFinset ∪ (keysOf p.in_use).toFinset = p.gpu_ids.toFinset
  ∧ p.available.toFinset ∩ (keysOf p.in_use).toFinset = ∅
  ∧ p.available.Nodup ∧ (keysOf p.in_use).Nodup

theorem keysOf_setKey_of_not_mem {α : Type} {l : List (String × α)} {k : String} (v : α)
    (h : k ∉ keysOf l) : keysOf (setKey l k v) = keysOf l ++ [k] := by
  induction l with
  | nil => simp [setKey]
  | cons a t ih =>
    simp only [keysOf_cons, List.mem_cons] at h
    push_neg at h
    simp [setKey, Ne.symm h.1, ih h.2]

theorem keysOf_removeKey_eq_filter {α : Type} (l : List (String × α)) (k : String) :
    keysOf (removeKey l k) = (keysOf l).filter (fun x => x ≠ k) := by
  induction l with
  | nil => simp [removeKey]
  | cons a t ih =>
    by_cases h : a.1 = k
    · simp [removeKey, h, List.filter_cons, ih]
    · simp [removeKey, h, List.filter_cons, ih]

theorem dedup_toFinset_eq (l : List String) : l.dedup.toFinset = l.toFinset := by
  ext x
  simp [List.mem_toFinset, List.mem_dedup]

theorem poolInv_init (gpu_ids : Option (List String)) (detected : List String) :
    PoolInv (GPUPool.init gpu_ids detected) := by
  refine ⟨?_, ?_, ?_, ?_⟩ <;>
    simp [GPUPool.init, dedup_toFinset_eq, List.nodup_dedup]

theorem poolInv_acquire (p : GPUPool) (jid : String) (h : PoolInv p) :
    PoolInv (p.acquire jid).1 := by
  obtain ⟨hu, hi, hna, hnk⟩ := h
  match hav : p.available with
  | [] => simpa [GPUPool.acquire, hav] using ⟨hu, hi, hna, hnk⟩
  | g :: rest =>
    rw [hav] at hu hi hna
    have hgrest : g ∉ rest := (List.nodup_cons.mp hna).1
    have hnrest : rest.Nodup := (List.nodup_cons.mp hna).2
    have hgkeys : g ∉ keysOf p.in_use := by
      intro hmem
      have : g ∈ (g :: rest).toFinset ∩ (keysOf p.in_use).toFinset := by
        simp [List.mem_toFinset, hmem]
      rw [hi] at this
      exact absurd this (Finset.not_mem_empty g)
    refine ⟨?_, ?_, ?_, ?_⟩
    · simp only [GPUPool.acquire, hav]
      rw [keysOf_setKey_of_not_mem jid hgkeys]
      rw [← hu]
      ext x
      simp only [Finset.mem_union, List.mem_toFinset, List.mem_append,
        List.mem_singleton, List.mem_cons]
      tauto
    · simp only [GPUPool.acquire, hav]
      rw [keysOf_setKey_of_not_mem jid hgkeys]
      ext x
      simp only [Finset.mem_inter, List.mem_toFinset, List.mem_append,
        List.mem_singleton, Finset.not_mem_empty, iff_false, not_and]
      rintro hx (hk | rfl)
      · have : x ∈ (g :: rest).toFinset ∩ (keysOf p.in_use).toFinset := by
          simp [List.mem_toFinset, hx, hk]
        rw [hi] at this
        exact absurd this (Finset.not_mem_empty x)
      · exact hgrest hx
    · simpa [GPUPool.acquire, hav] using hnrest
    · simp only [GPUPool.acquire, hav]
      rw [keysOf_setKey_of_not_mem jid hgkeys]
      simpa [List.nodup_append] using ⟨hnk, fun h => hgkeys h⟩

theorem poolInv_release (p : GPUPool) (g : String) (h : PoolInv p) :
    PoolInv (p.release g) := by
  obtain ⟨hu, hi, hna, hnk⟩ := h
  by_cases hheld : (lookupKey p.in_use g).isSome
  · have hgkeys : g ∈ keysOf p.in_use := mem_keysOf_of_lookupKey_isSome hheld
    have hgav : g ∉ p.available := by
      intro hmem
      have : g ∈ p.available.toFinset ∩ (keysOf p.in_use).toFinset := by
        simp [List.mem_toFinset, hmem, hgkeys]
      rw [hi] at this
      exact absurd this (Finset.not_mem_empty g)
    refine ⟨?_, ?_, ?_, ?_⟩
    · simp only [GPUPool.release, hheld, if_true, hgav, if_false]
      rw [keysOf_removeKey_eq_filter, ← hu]
      ext x
      simp only [Finset.mem_union, List.mem_toFinset, List.mem_cons,
        List.mem_filter, decide_eq_true_eq]
      constructor
      · rintro ((rfl | hx) | ⟨hx, _⟩)
        · exact Or.inr hgkeys
        · exact Or.inl hx
        · exact Or.inr hx
      · rintro (hx | hx)
        · exact Or.inl (Or.inr hx)
        · by_cases hxg : x = g
          · exact Or.inl (Or.inl hxg)
          · exact Or.inr ⟨hx, by simpa using hxg⟩
    · simp only [GPUPool.release, hheld, if_true, hgav, if_false]
      rw [keysOf_removeKey_eq_filter]
      apply Finset.eq_empty_iff_forall_not_mem.mpr
      intro x hx
      rw [Finset.mem_inter, List.mem_toFinset, List.mem_toFinset, List.mem_cons,
        List.mem_filter] at hx
      obtain ⟨h1, h2, h3⟩ := And.intro hx.1 (And.intro hx.2.1 hx.2.2)
      rcases h1 with rfl | h1
      · simp at h3
      · have : x ∈ p.available.toFinset ∩ (keysOf p.in_use).toFinset := by
          simp [List.mem_toFinset, h1, h2]
        rw [hi] at this
        exact absurd this (Finset.not_mem_empty x)
    · simp only [GPUPool.release, hheld, if_true, hgav, if_false]
      exact List.nodup_cons.mpr ⟨hgav, hna⟩
    · simp only [GPUPool.release, hheld, if_true]
      rw [keysOf_removeKey_eq_filter]
      exact hnk.filter _
  · simpa [GPUPool.release, hheld] using ⟨hu, hi, hna, hnk⟩

theorem poolInv_applyPoolOps (p : GPUPool) (ops : List PoolOp) (h : PoolInv p) :
    PoolInv (applyPoolOps p ops) := by
  induction ops generalizing p with
  | nil => simpa [applyPoolOps]
  | cons op rest ih =>
    have hstep : PoolInv (applyPoolOp p op) := by
      cases op with
      | acquire jid => exact poolInv_acquire p jid h
      | release g => exact poolInv_release p g h
    simpa [applyPoolOps, List.foldl_cons] using ih (applyPoolOp p op) hstep

/-! ## Job records and queue state (queue.py lines 119-194) -/

/-- The QueuedJob dataclass (queue.py lines 119-132), field for field.
Statuses are the strings the source uses: "queued", "running", "completed",
"failed", "cancelled". -/
structure QueuedJob where
  job_id : String
  output_dir : String
  script_path : String
  args : List (String × PyValue)
  submitted_at : String
  status : String := "queued"
  started_at : Option String := none
  completed_at : Option String := none
  gpu_id : Option String := none
  error : Option String := none
  pid : Option Nat := none
deriving DecidableEq

/-- The queue_state.json snapshot written by _save_state (queue.py lines
654-667). running_jobs maps job_id to the (optional) gpu_id of its record. -/
structure StateFile where
  max_workers : Int := 1
  gpu_ids : List String := []
  pending_jobs : List String := []
  running_jobs : List (String × Option String) := []
deriving DecidableEq

/-- The mutable state of a JobQueue plus the filesystem it persists to:
`queue` models the deque of pending job ids, `jobs` the in-memory record map,
`running` the job_id -> process map (keeping only the pid), `disk` the
per-job metadata.json files keyed by job id, and `state_file` the
queue_state.json contents. -/
structure QueueState where
  max_workers : Int
  pool : GPUPool
  queue : List String
  jobs : List (String × QueuedJob)
  running : List (String × Nat)
  disk : List (String × QueuedJob)
  state_file : StateFile
deriving DecidableEq

/-- _save_job_metadata: rewrite jobs_dir/job_id/metadata.json wholesale. -/
def save_job_metadata (s : QueueState) (job : QueuedJob) : QueueState :=
  { s with disk := setKey s.disk job.job_id job }

/-- _save_state: rewrite queue_state.json from the live maps (queue.py lines
654-667); running_jobs keeps only running ids that still have a record. -/
def save_state (s : QueueState) : QueueState :=
  { s with state_file := {
      max_workers := s.max_workers,
      gpu_ids := s.pool.gpu_ids,
      pending_jobs := s.queue,
      running_jobs := s.running.filterMap
        (fun p => (lookupKey s.jobs p.1).map (fun j => (p.1, j.gpu_id))) } }

/-- The response of JobQueue.submit. -/
structure QueueSubmitResult where
  status : String
  job_id : String
  position : Nat
  queue_length : Nat
deriving DecidableEq

/-- JobQueue.submit (queue.py lines 196-244): create the record in state
"queued", insert it, append the id to the deque, persist record and state,
return the 1-indexed position after append.  The generated uuid and
datetime.now() are the jid / now parameters. -/
def queue_submit (s : QueueState) (script_path : String) (args : List (String × PyValue))
    (output_dir : String) (now jid : String) : QueueSubmitResult × QueueState :=
  let job : QueuedJob := {
    job_id := jid, output_dir := output_dir, script_path := script_path,
    args := args, submitted_at := now }
  let queue' := s.queue ++ [jid]
  let s' := save_state (save_job_metadata
    { s with jobs := setKey s.jobs jid job, queue := queue' } job)
  ({ status := "queued", job_id := jid, position := queue'.length,
     queue_length := queue'.length }, s')

/-- The response of JobQueue.get_job_status; err is the not-found dict. -/
inductive JobStatusResult where
  | err (error : String)
  | ok (job_id job_status : String) (queue_position : Option Nat)
      (output_dir : String) (gpu_id : Option String) (submitted_at : String)
      (started_at completed_at error : Option String)
deriving DecidableEq

/-- The job_status field of the response, when the call succeeded. -/
def JobStatusResult.jobStatus? : JobStatusResult → Option String
  | .err _ => none
  | .ok _ st _ _ _ _ _ _ _ => some st

/-- JobQueue.get_job_status (queue.py lines 246-286): use the in-memory
record, else fall back to the on-disk metadata (caching it in memory), else
the not-found error; derive the queue position from the status. -/
def get_job_status (s : QueueState) (job_id : String) : JobStatusResult × QueueState :=
  let loaded : Option QueuedJob × List (String × QueuedJob) :=
    match lookupKey s.jobs job_id with
    | some j => (some j, s.jobs)
    | none =>
      match lookupKey s.disk job_id with
      | some j => (some j, setKey s.jobs job_id j)
      | none => (none, s.jobs)
  match loaded.1 with
  | none => (.err ("Job " ++ job_id ++ " not found"), s)
  | some job =>
    let position : Option Nat :=
      if job.status == "queued" then (idxOf s.queue job_id).map (· + 1)
      else if job.status == "running" then some 0
      else none
    (.ok job_id job.status position job.output_dir job.gpu_id job.submitted_at
       job.started_at job.completed_at job.error,
     { s with jobs := loaded.2 })

/-- The response of JobQueue.get_queue_status. -/
structure QueueStatusResult where
  queue_length : Nat
  running_count : Nat
  max_workers : Int
  running_jobs : List String
  queued_jobs : List (String × Nat)
  available_gpus : List String
  total_gpus : Nat
  gpu_assignments : List (String × String)
deriving DecidableEq

/-- JobQueue.get_queue_status (queue.py lines 288-325). -/
def get_queue_status (s : QueueState) : QueueStatusResult :=
  { queue_length := s.queue.length,
    running_count := s.running.length,
    max_workers := s.max_workers,
    running_jobs := (s.running.map Prod.fst).filter
      (fun jid => (lookupKey s.jobs jid).isSome),
    queued_jobs := (s.queue.enum.filterMap
      (fun p => if (lookupKey s.jobs p.2).isSome then some (p.2, p.1 + 1) else none)).take 10,
    available_gpus := s.pool.available,
    total_gpus := s.pool.gpu_ids.length,
    gpu_assignments := s.pool.in_use }

/-- The response of JobQueue.cancel_job: the success dict or the error dict. -/
inductive CancelResult where
  | ok (message : String)
  | err (error : String)
deriving DecidableEq

/-- JobQueue.cancel_job (queue.py lines 327-365).  Only the in-memory map is
consulted.  A queued job is removed from the deque and persisted (record and
state); a running job has its process terminated (an external effect — the
entry stays in the running map until the worker loop reaps it) and only the
record is persisted; a terminal job is an error. -/
def cancel_job (now : String) (s : QueueState) (job_id : String) : CancelResult × QueueState :=
  match lookupKey s.jobs job_id with
  | none => (.err ("Job " ++ job_id ++ " not found"), s)
  | some job =>
    if job.status == "queued" then
      let job' := { job with status := "cancelled", completed_at := some now }
      let s' := save_state (save_job_metadata
        { s with queue := eraseFirst s.queue job_id,
                 jobs := setKey s.jobs job_id job' } job')
      (.ok ("Job " ++ job_id ++ " cancelled (was queued)"), s')
    else if job.status == "running" then
      let job' := { job with status := "cancelled", completed_at := some now }
      let s' := save_job_metadata
        { s with jobs := setKey s.jobs job_id job' } job'
      (.ok ("Job " ++ job_id ++ " cancelled (was running)"), s')
    else
      (.err ("Job " ++ job_id ++ " is already " ++ job.status), s)

/-! ## Worker-loop operations (queue.py lines 421-635) -/

/-- The record mutation performed by _start_job (queue.py lines 567-571,
617): mark running, stamp started_at, pin the device, record the child pid.
The spawned argv is build_command job.script_path job.args; the spawn itself
and job_info.json are external effects. -/
def start_job (now : String) (new_pid : Nat) (job : QueuedJob) (gpu_id : String) : QueuedJob :=
  { job with status := "running", started_at := some now,
             gpu_id := some gpu_id, pid := some new_pid }

/-- JobQueue._try_start_next_job (queue.py lines 528-565), one worker-tick
dispatch attempt.  now models datetime.now(), new_pid the spawned child's
pid, spawn_ok whether Popen succeeded (spawn_err is str(e) otherwise, the
exception modelled as raised by the spawn itself).  Note the source returns
after at most one dispatch: a missing head record is popped and the function
returns; acquire failure returns; a successful dispatch returns. -/
def try_start_next_job (now : String) (new_pid : Nat) (spawn_ok : Bool) (spawn_err : String)
    (s : QueueState) : QueueState :=
  if s.max_workers ≤ (s.running.length : Int) then s
  else match s.queue with
  | [] => s
  | job_id :: rest =>
    match lookupKey s.jobs job_id with
    | none => { s with queue := rest }
    | some job =>
      match s.pool.available with
      | [] => s
      | g :: gs =>
        let pool' : GPUPool :=
          { s.pool with available := gs, in_use := setKey s.pool.in_use g job_id }
        if spawn_ok then
          let job' := start_job now new_pid job g
          save_state (save_job_metadata
            { s with queue := rest, jobs := setKey s.jobs job_id job',
                     running := setKey s.running job_id new_pid, pool := pool' } job')
        else
          let job' := { job with
            status := "failed", started_at := some now,
            gpu_id := some g, error := some spawn_err,
            completed_at := some now }
          save_state (save_job_metadata
            { s with queue := rest, jobs := setKey s.jobs job_id job',
                     pool := pool'.release g } job')

/-- One iteration of the reap loop body in _check_completed_jobs (queue.py
lines 504-526) for an observed (job_id, returncode): drop from the running
map; if a record exists, stamp completed_at, set the terminal status from
the return code, release the held device (Python truthiness: no release for
None or empty gpu_id), persist record and state. -/
def reap_one (now : String) (s : QueueState) (jr : String × Int) : QueueState :=
  let s1 := { s with running := removeKey s.running jr.1 }
  match lookupKey s1.jobs jr.1 with
  | none => s1
  | some job =>
    let job' := { job with
      completed_at := some now,
      status := if jr.2 = 0 then "completed" else "failed",
      error := if jr.2 = 0 then job.error
               else some ("Process exited with code " ++ toString jr.2) }
    let pool' := match job'.gpu_id with
      | some g => if g == "" then s1.pool else s1.pool.release g
      | none => s1.pool
    save_state (save_job_metadata
      { s1 with jobs := setKey s1.jobs jr.1 job', pool := pool' } job')

/-- The completed list collected by the first loop of _check_completed_jobs
(queue.py lines 499-502): the running entries whose process has exited,
with their return codes, in running-map order. -/
def completed_list (poll : String → Option Int) (running : List (String × Nat)) :
    List (String × Int) :=
  running.filterMap (fun p => (poll p.1).map (fun rc => (p.1, rc)))

/-- JobQueue._check_completed_jobs (queue.py lines 496-526): snapshot the
exited processes, then reap each in order. -/
def check_completed_jobs (poll : String → Option Int) (now : String) (s : QueueState) :
    QueueState :=
  (completed_list poll s.running).foldl (reap_one now) s

/-! ## Recovery (_load_state, queue.py lines 669-698) and construction -/

/-- The pending-restoration loop of _load_state: for each persisted pending
id, reload its record; if it is still "queued", cache it in memory and
re-append it to the deque.  jobs and q are the accumulators (initially
empty, since __init__ starts with empty maps). -/
def restore_pending (disk : List (String × QueuedJob)) :
    List String → List (String × QueuedJob) → List String →
    List (String × QueuedJob) × List String
  | [], jobs, q => (jobs, q)
  | jid :: rest, jobs, q =>
    match lookupKey disk jid with
    | some j =>
      if j.status == "queued" then
        restore_pending disk rest (setKey jobs jid j) (q ++ [jid])
      else restore_pending disk rest jobs q
    | none => restore_pending disk rest jobs q

/-- The running-jobs loop of _load_state: each persisted running id whose
record is still "running" is rewritten on disk as failed with the restart
marker and completed_at = now.  The updated disk is threaded through. -/
def fail_running (now : String) (disk : List (String × QueuedJob)) :
    List (String × Option String) → List (String × QueuedJob)
  | [] => disk
  | (jid, _) :: rest =>
    match lookupKey disk jid with
    | some j =>
      if j.status == "running" then
        fail_running now (setKey disk jid
          { j with status := "failed",
                   error := some "Server restarted while job was running",
                   completed_at := some now }) rest
      else fail_running now disk rest
    | none => fail_running now disk rest

/-- JobQueue._load_state (queue.py lines 669-698): restore pending jobs into
the empty in-memory maps, then mark persisted running jobs failed on disk.
Returns ((jobs, queue), disk after the rewrite). -/
def load_state (sf : StateFile) (disk : List (String × QueuedJob)) (now : String) :
    (List (String × QueuedJob) × List String) × List (String × QueuedJob) :=
  (restore_pending disk sf.pending_jobs [] [], fail_running now disk sf.running_jobs)

/-- JobQueue.__init__ (queue.py lines 146-194) followed by the _load_state
call: build the pool from the given ids (or the detected ones when the given
list is falsy), clamp max_workers to the pool size, start with empty maps,
then recover from the state file if it exists.  Restored running jobs hold
no device: the pool starts with everything free. -/
def init_queue (max_workers : Int) (gpu_ids : Option (List String)) (detected : List String)
    (sf : Option StateFile) (disk : List (String × QueuedJob)) (now : String) : QueueState :=
  let pool := GPUPool.init gpu_ids detected
  let mw := if (pool.gpu_ids.length : Int) < max_workers
            then (pool.gpu_ids.length : Int) else max_workers
  match sf with
  | none =>
    { max_workers := mw, pool := pool, queue := [], jobs := [], running := [],
      disk := disk, state_file := {} }
  | some f =>
    let r := load_state f disk now
    { max_workers := mw, pool := pool, queue := r.1.2, jobs := r.1.1, running := [],
      disk := r.2, state_file := f }

/-! ## MCP tool layer (boltzgen_design.py) -/

/-- Outcome of an MCP tool call as implemented: either the function raised
(the exception escapes to the transport layer) or it returned a dict. -/
inductive Outcome (α : Type) where
  | raised (msg : String)
  | returned (resp : α)
deriving DecidableEq

/-- Whether the call raised instead of returning. -/
def Outcome.isRaised {α : Type} : Outcome α → Bool
  | .raised _ => true
  | .returned _ => false

/-- The PROTOCOL_DESCRIPTIONS table (boltzgen_design.py lines 52-58). -/
def PROTOCOL_DESCRIPTIONS : List (String × String) :=
  [("protein-anything", "General protein binder design (default)"),
   ("peptide-anything", "Peptide binder design (filters cysteines, lower diversity)"),
   ("protein-small_molecule", "Protein-small molecule interaction design (includes affinity metrics)"),
   ("nanobody-anything", "Nanobody binder design (filters cysteines)"),
   ("antibody-anything", "Antibody binder design (filters cysteines)")]

/-- The closed protocol set of _validate_protocol (boltzgen_design.py
lines 61-69). -/
def valid_protocols : List String :=
  ["protein-anything", "peptide-anything", "protein-small_molecule",
   "nanobody-anything", "antibody-anything"]

/-- _validate_protocol: ok, or the ValueError message it raises. -/
def validate_protocol (protocol : String) : Except String Unit :=
  if protocol ∈ valid_protocols then .ok ()
  else .error ("Invalid protocol: " ++ protocol ++ ". Must be one of: "
    ++ String.intercalate ", " valid_protocols ++ "\n"
    ++ String.intercalate "\n"
      (PROTOCOL_DESCRIPTIONS.map (fun kv => "  - " ++ kv.1 ++ ": " ++ kv.2)))

/-- The dict returned by boltzgen_submit, restricted to the fields the
claims mention; the error shape is {status := "error", error_message}. -/
structure SubmitResp where
  status : String
  error_message : Option String := none
  job_id : Option String := none
  queue_position : Option Nat := none
  queue_length : Option Nat := none
  output_dir : Option String := none
deriving DecidableEq

/-- boltzgen_submit (boltzgen_design.py lines 303-418).  _validate_protocol
is called before the try-block, so an invalid protocol RAISES out of the
function; exceptions inside the try (scripts dir missing, config file
missing) are caught and returned as the error dict.  config_exists /
scripts_exist model the filesystem probes; now and jid feed queue_submit. -/
def boltzgen_submit (protocol config output : String) (num_designs budget : Int)
    (config_exists scripts_exist : Bool) (now jid : String) (s : QueueState) :
    Outcome SubmitResp × QueueState :=
  match validate_protocol protocol with
  | .error e => (.raised e, s)
  | .ok _ =>
    if !scripts_exist then
      (.returned { status := "error"
                   error_message := some "BoltzGen scripts not found at scripts. Please ensure the scripts directory exists." }, s)
    else if !config_exists then
      (.returned { status := "error"
                   error_message := some ("Config file not found: " ++ config) }, s)
    else
      let args : List (String × PyValue) :=
        [("config", .str config), ("output", .str output), ("protocol", .str protocol),
         ("num_designs", .int num_designs), ("budget", .int budget)]
      let r := queue_submit s "scripts/run_boltzgen.py" args output now jid
      (.returned { status := r.1.status, job_id := some r.1.job_id,
                   queue_position := some r.1.position,
                   queue_length := some r.1.queue_length,
                   output_dir := some output }, r.2)

/-- The dict returned by boltzgen_run, restricted to the relevant fields. -/
structure RunResp where
  status : String
  error_message : Option String := none
  return_code : Option Int := none
  total_designs : Option Nat := none
deriving DecidableEq

/-- boltzgen_run (boltzgen_design.py lines 162-300), the synchronous path.
As in boltzgen_submit, _validate_protocol is called OUTSIDE the try-block
and raises on a bad protocol.  The child's return code and the design count
are external observations passed as parameters; the queue is never touched. -/
def boltzgen_run (protocol config : String) (config_exists scripts_exist : Bool)
    (rc : Int) (design_count : Nat) : Outcome RunResp :=
  match validate_protocol protocol with
  | .error e => .raised e
  | .ok _ =>
    if !scripts_exist then
      .returned { status := "error"
                  error_message := some "BoltzGen scripts not found at scripts. Please ensure the scripts directory exists." }
    else if !config_exists then
      .returned { status := "error"
                  error_message := some ("Config file not found: " ++ config) }
    else
      .returned { status := if rc = 0 then "success" else "error",
                  return_code := some rc,
                  total_designs := some (if rc = 0 then design_count else 0) }

/-! ## Helper lemmas: persistence projections -/

@[simp] theorem save_state_jobs (s : QueueState) : (save_state s).jobs = s.jobs := rfl

@[simp] theorem save_state_pool (s : QueueState) : (save_state s).pool = s.pool := rfl

@[simp] theorem save_state_running (s : QueueState) : (save_state s).running = s.running := rfl

@[simp] theorem save_state_queue (s : QueueState) : (save_state s).queue = s.queue := rfl

@[simp] theorem save_state_disk (s : QueueState) : (save_state s).disk = s.disk := rfl

@[simp] theorem save_job_metadata_jobs (s : QueueState) (j : QueuedJob) :
    (save_job_metadata s j).jobs = s.jobs := rfl

@[simp] theorem save_job_metadata_pool (s : QueueState) (j : QueuedJob) :
    (save_job_metadata s j).pool = s.pool := rfl

@[simp] theorem save_job_metadata_running (s : QueueState) (j : QueuedJob) :
    (save_job_metadata s j).running = s.running := rfl

@[simp] theorem save_job_metadata_queue (s : QueueState) (j : QueuedJob) :
    (save_job_metadata s j).queue = s.queue := rfl

/-! ## Helper lemmas: single reap step -/

theorem mem_removeKey_of_ne {α : Type} {l : List (String × α)} {kv : String × α} {k : String}
    (h : kv ∈ l) (hne : kv.1 ≠ k) : kv ∈ removeKey l k := by
  induction l with
  | nil => cases h
  | cons a t ih =>
    rcases List.mem_cons.mp h with rfl | h
    · simp [removeKey, hne]
    · by_cases ha : a.1 = k
      · simpa [removeKey, ha] using ih h
      · simp [removeKey, ha, ih h]

theorem mem_avail_release {p : GPUPool} {g g' : String} (h : g ∈ p.available) :
    g ∈ (p.release g').available := by
  unfold GPUPool.release
  split
  · by_cases hg : g' ∈ p.available
    · simpa [hg] using h
    · simp [hg, h]
  · exact h

theorem release_AB {p : GPUPool} {g jid g' : String}
    (h : g ∈ p.available ∨ (g, jid) ∈ p.in_use) :
    g ∈ (p.release g').available ∨ (g, jid) ∈ (p.release g').in_use := by
  rcases h with h | h
  · exact Or.inl (mem_avail_release h)
  · by_cases hgg : g' = g
    · subst hgg
      have hsome : (lookupKey p.in_use g').isSome :=
        lookupKey_isSome_of_mem h
      unfold GPUPool.release
      rw [if_pos hsome]
      by_cases hav : g' ∈ p.available
      · exact Or.inl (by simp [hav])
      · exact Or.inl (by simp [hav])
    · unfold GPUPool.release
      split
      · exact Or.inr (mem_removeKey_of_ne h (by simpa using Ne.symm hgg))
      · exact Or.inr h

theorem release_self_mem {p : GPUPool} {g jid : String}
    (h : g ∈ p.available ∨ (g, jid) ∈ p.in_use) :
    g ∈ (p.release g).available := by
  rcases h with h | h
  · exact mem_avail_release h
  · have hsome : (lookupKey p.in_use g).isSome := lookupKey_isSome_of_mem h
    unfold GPUPool.release
    rw [if_pos hsome]
    by_cases hav : g ∈ p.available
    · simp [hav]
    · simp [hav]

theorem reap_one_jobs_lookup_ne (now : String) (s : QueueState) (jr : String × Int)
    {jid : String} (h : jid ≠ jr.1) :
    lookupKey (reap_one now s jr).jobs jid = lookupKey s.jobs jid := by
  unfold reap_one
  cases hl : lookupKey s.jobs jr.1 with
  | none => simp [hl]
  | some job => simp [hl, lookupKey_setKey_ne _ _ h]

theorem reap_one_avail_mono (now : String) (s : QueueState) (jr : String × Int)
    {g : String} (h : g ∈ s.pool.available) :
    g ∈ (reap_one now s jr).pool.available := by
  unfold reap_one
  cases hl : lookupKey s.jobs jr.1 with
  | none => simpa [hl] using h
  | some job =>
    simp only [hl]
    cases hg : job.gpu_id with
    | none => simpa [hg] using h
    | some g' =>
      by_cases he : g' == ""
      · simpa [hg, he] using h
      · simpa [hg, he] using mem_avail_release h

theorem reap_one_AB (now : String) (s : QueueState) (jr : String × Int)
    {g jid : String}
    (h : g ∈ s.pool.available ∨ (g, jid) ∈ s.pool.in_use) :
    g ∈ (reap_one now s jr).pool.available ∨ (g, jid) ∈ (reap_one now s jr).pool.in_use := by
  unfold reap_one
  cases hl : lookupKey s.jobs jr.1 with
  | none => simpa [hl] using h
  | some job =>
    simp only [hl]
    cases hg : job.gpu_id with
    | none => simpa [hg] using h
    | some g' =>
      by_cases he : g' == ""
      · simpa [hg, he] using h
      · simpa [hg, he] using release_AB h

theorem reap_one_running_notmem (now : String) (s : QueueState) (jr : String × Int)
    {jid : String} (h : jid ∉ keysOf s.running) :
    jid ∉ keysOf (reap_one now s jr).running := by
  unfold reap_one
  cases hl : lookupKey s.jobs jr.1 with
  | none =>
    simp only [hl]
    exact fun hm => h (mem_keysOf_removeKey hm)
  | some job =>
    simp only [hl]
    cases hg : job.gpu_id with
    | none =>
      simp only [hg, save_state_running, save_job_metadata_running]
      exact fun hm => h (mem_keysOf_removeKey hm)
    | some g' =>
      by_cases he : g' == "" <;>
        simp only [hg, he, if_pos, if_neg, save_state_running, save_job_metadata_running] <;>
        exact fun hm => h (mem_keysOf_removeKey hm)

/-- The record produced by a reap of job jid observed with return code rc. -/
def reapRecord (now : String) (j : QueuedJob) (rc : Int) : QueuedJob :=
  { j with
    status := if rc = 0 then "completed" else "failed",
    error := if rc = 0 then j.error
             else some ("Process exited with code " ++ toString rc),
    completed_at := some now }

theorem reap_one_self (now : String) (s : QueueState) (jid : String) (rc : Int)
    {j : QueuedJob} (hjob : lookupKey s.jobs jid = some j) :
    lookupKey (reap_one now s (jid, rc)).jobs jid = some (reapRecord now j rc)
    ∧ jid ∉ keysOf (reap_one now s (jid, rc)).running
    ∧ ∀ g, j.gpu_id = some g → g ≠ "" →
        (g ∈ s.pool.available ∨ (g, jid) ∈ s.pool.in_use) →
        g ∈ (reap_one now s (jid, rc)).pool.available := by
  refine ⟨?_, ?_, ?_⟩
  · unfold reap_one
    simp [hjob, reapRecord]
  · unfold reap_one
    simp only [hjob]
    cases hg : j.gpu_id with
    | none =>
      simp only [hg, save_state_running, save_job_metadata_running]
      exact not_mem_keysOf_removeKey _ _
    | some g' =>
      by_cases he : g' == "" <;>
        simp only [hg, he, if_pos, if_neg, save_state_running, save_job_metadata_running] <;>
        exact not_mem_keysOf_removeKey _ _
  · intro g hg hne hAB
    unfold reap_one
    have he : (g == "") = false := by simpa using hne
    simp only [hjob, hg, he, Bool.false_eq_true, if_false,
      save_state_pool, save_job_metadata_pool]
    exact release_self_mem hAB

/-! ## Helper lemmas: the reap fold -/

theorem foldl_reap_jobs_ne (now : String) (l : List (String × Int)) (s : QueueState)
    {jid : String} (h : jid ∉ keysOf l) :
    lookupKey ((l.foldl (reap_one now) s)).jobs jid = lookupKey s.jobs jid := by
  induction l generalizing s with
  | nil => rfl
  | cons a t ih =>
    simp only [keysOf_cons, List.mem_cons] at h
    push_neg at h
    rw [List.foldl_cons, ih _ h.2]
    exact reap_one_jobs_lookup_ne now s a h.1

theorem foldl_reap_avail_mono (now : String) (l : List (String × Int)) (s : QueueState)
    {g : String} (h : g ∈ s.pool.available) :
    g ∈ ((l.foldl (reap_one now) s)).pool.available := by
  induction l generalizing s with
  | nil => exact h
  | cons a t ih =>
    rw [List.foldl_cons]
    exact ih _ (reap_one_avail_mono now s a h)

theorem foldl_reap_AB (now : String) (l : List (String × Int)) (s : QueueState)
    {g jid : String}
    (h : g ∈ s.pool.available ∨ (g, jid) ∈ s.pool.in_use) :
    g ∈ ((l.foldl (reap_one now) s)).pool.available
    ∨ (g, jid) ∈ ((l.foldl (reap_one now) s)).pool.in_use := by
  induction l generalizing s with
  | nil => exact h
  | cons a t ih =>
    rw [List.foldl_cons]
    exact ih _ (reap_one_AB now s a h)

theorem foldl_reap_running_notmem (now : String) (l : List (String × Int)) (s : QueueState)
    {jid : String} (h : jid ∉ keysOf s.running) :
    jid ∉ keysOf ((l.foldl (reap_one now) s)).running := by
  induction l generalizing s with
  | nil => exact h
  | cons a t ih =>
    rw [List.foldl_cons]
    exact ih _ (reap_one_running_notmem now s a h)

theorem keysOf_completed_sublist (poll : String → Option Int) (r : List (String × Nat)) :
    (keysOf (completed_list poll r)).Sublist (keysOf r) := by
  induction r with
  | nil => simp [completed_list]
  | cons a t ih =>
    cases hp : poll a.1 with
    | none =>
      simp only [completed_list, List.filterMap_cons, hp, Option.map_none]
      exact (ih : _).cons a.1
    | some rc =>
      simp only [completed_list, List.filterMap_cons, hp, Option.map_some, keysOf_cons]
      exact (ih : _).cons₂ a.1

theorem mem_completed_list {poll : String → Option Int} {r : List (String × Nat)}
    {jid : String} {pidv : Nat} {rc : Int}
    (hmem : (jid, pidv) ∈ r) (hpoll : poll jid = some rc) :
    (jid, rc) ∈ completed_list poll r := by
  apply List.mem_filterMap.mpr
  exact ⟨(jid, pidv), hmem, by simp [hpoll]⟩

theorem exists_split_of_mem_nodup_keys {α : Type} {l : List (String × α)}
    {x : String × α} (hmem : x ∈ l) (hn : (keysOf l).Nodup) :
    ∃ l1 l2, l = l1 ++ x :: l2 ∧ x.1 ∉ keysOf l1 ∧ x.1 ∉ keysOf l2 := by
  induction l with
  | nil => cases hmem
  | cons a t ih =>
    rw [keysOf_cons, List.nodup_cons] at hn
    rcases List.mem_cons.mp hmem with rfl | hmem
    · exact ⟨[], t, rfl, by simp, hn.1⟩
    · obtain ⟨l1, l2, heq, h1, h2⟩ := ih hmem hn.2
      refine ⟨a :: l1, l2, by rw [heq, List.cons_append], ?_, h2⟩
      simp only [keysOf_cons, List.mem_cons]
      rintro (hax | h)
      · exact hn.1 (by rw [← hax]; exact mem_keysOf_of_mem hmem)
      · exact h1 h

/-- The central reap theorem: if the running map has duplicate-free keys, job
jid is running with some pid, its process is observed exited with code rc,
and its record is j, then after _check_completed_jobs the record is the
reaped record, jid is out of the running map, and a held (or already free)
non-empty device of the record is in the free list. -/
theorem check_completed_spec (poll : String → Option Int) (now : String) (s : QueueState)
    (jid : String) (pidv : Nat) (rc : Int) {j : QueuedJob}
    (hn : (keysOf s.running).Nodup)
    (hmem : (jid, pidv) ∈ s.running)
    (hpoll : poll jid = some rc)
    (hjob : lookupKey s.jobs jid = some j) :
    lookupKey (check_completed_jobs poll now s).jobs jid = some (reapRecord now j rc)
    ∧ jid ∉ keysOf (check_completed_jobs poll now s).running
    ∧ ∀ g, j.gpu_id = some g → g ≠ "" →
        (g ∈ s.pool.available ∨ (g, jid) ∈ s.pool.in_use) →
        g ∈ (check_completed_jobs poll now s).pool.available := by
  have hcm : (jid, rc) ∈ completed_list poll s.running := mem_completed_list hmem hpoll
  have hcn : (keysOf (completed_list poll s.running)).Nodup :=
    hn.sublist (keysOf_completed_sublist poll s.running)
  obtain ⟨l1, l2, heq, h1, h2⟩ := exists_split_of_mem_nodup_keys hcm hcn
  unfold check_completed_jobs
  rw [heq, List.foldl_append, List.foldl_cons]
  set smid := l1.foldl (reap_one now) s with hsmid
  have hjob1 : lookupKey smid.jobs jid = some j := by
    rw [hsmid, foldl_reap_jobs_ne now l1 s h1]
    exact hjob
  obtain ⟨hj2, hr2, hg2⟩ := reap_one_self now smid jid rc hjob1
  refine ⟨?_, ?_, ?_⟩
  · rw [foldl_reap_jobs_ne now l2 _ h2]
    exact hj2
  · exact foldl_reap_running_notmem now l2 _ hr2
  · intro g hg hne hAB
    have hABmid : g ∈ smid.pool.available ∨ (g, jid) ∈ smid.pool.in_use := by
      rw [hsmid]
      exact foldl_reap_AB now l1 s hAB
    exact foldl_reap_avail_mono now l2 _ (hg2 g hg hne hABmid)

/-! ## Claim C8 -/

/-- Claim C8: after every sequence of acquire and release operations on the
device pool, the free set and the key set of the held map partition the full
pool (union is all devices, intersection empty); and release of a device-id
that is not currently held leaves the pool unchanged and raises no error. -/
theorem pool_partition_invariant_and_release_unknown_noop :
    ∀ (gpu_ids : Option (List String)) (detected : List String) (ops : List PoolOp),
      ((applyPoolOps (GPUPool.init gpu_ids detected) ops).available.toFinset
          ∪ (keysOf (applyPoolOps (GPUPool.init gpu_ids detected) ops).in_use).toFinset
        = (applyPoolOps (GPUPool.init gpu_ids detected) ops).gpu_ids.toFinset
       ∧ (applyPoolOps (GPUPool.init gpu_ids detected) ops).available.toFinset
          ∩ (keysOf (applyPoolOps (GPUPool.init gpu_ids detected) ops).in_use).toFinset = ∅)
      ∧ ∀ (p : GPUPool) (g : String), g ∉ keysOf p.in_use → p.release g = p := by
  intro gids det ops
  have h := poolInv_applyPoolOps _ ops (poolInv_init gids det)
  refine ⟨⟨h.1, h.2.1⟩, ?_⟩
  intro p g hg
  have hnone : (lookupKey p.in_use g).isSome = false := by
    cases hl : lookupKey p.in_use g with
    | none => rfl
    | some v => exact absurd (mem_keysOf_of_lookupKey_isSome (by simp [hl])) hg
  simp [GPUPool.release, hnone]

theorem pool_partition_witness :
    ("9" ∉ keysOf (applyPoolOps (GPUPool.init (some ["0", "1"]) []) [PoolOp.acquire "a"]).in_use)
    ∧ (applyPoolOps (GPUPool.init (some ["0", "1"]) []) [PoolOp.acquire "a"]).release "9"
        = applyPoolOps (GPUPool.init (some ["0", "1"]) []) [PoolOp.acquire "a"] :=
  ⟨by decide,
   (pool_partition_invariant_and_release_unknown_noop (some ["0", "1"]) [] [PoolOp.acquire "a"]).2
     (applyPoolOps (GPUPool.init (some ["0", "1"]) []) [PoolOp.acquire "a"]) "9" (by decide)⟩

/-! ## Claim C2 -/

/-- Claim C2 counterexample: even with an empty args mapping the launched
argv is ["python", script_path], not [script_path] as the claim's
construction prescribes — argv[0] is the interpreter, argv[1] the script. -/
theorem build_command_differs_from_spec_command :
    build_command "run_boltzgen.py" [("num_designs", PyValue.int 10)]
      ≠ spec_command "run_boltzgen.py" [("num_designs", PyValue.int 10)] := by
  decide

/-- Claim C2 (amended): the argv that launches the job's external process
equals "python" prepended to the claimed construction: [python, script_path],
then for each entry of record.args in insertion order "--"+name followed by
str(value) when the value is neither boolean nor none, "--"+name alone when
boolean true, and nothing when boolean false or none. -/
theorem build_command_eq_python_prepended_spec :
    ∀ (script_path : String) (args : List (String × PyValue)),
      build_command script_path args = "python" :: spec_command script_path args := by
  intro sp args
  rfl

/-! ## Claim C3 -/

/-- Claim C3: for every running job whose child process is observed exited
with return code rc at a reap step: rc = 0 yields status "completed",
otherwise "failed" with error exactly "Process exited with code rc"; in both
cases completed_at is stamped with the reap time, the held device returns to
the free pool, and the job leaves the running map. -/
theorem reap_exit_code_determines_terminal_state
    (poll : String → Option Int) (now : String) (s : QueueState)
    (jid : String) (pidv : Nat) (rc : Int) (j : QueuedJob) (g : String)
    (hn : (keysOf s.running).Nodup)
    (hmem : (jid, pidv) ∈ s.running)
    (hpoll : poll jid = some rc)
    (hjob : lookupKey s.jobs jid = some j)
    (hst : j.status = "running")
    (hgpu : j.gpu_id = some g) (hge : g ≠ "")
    (hheld : (g, jid) ∈ s.pool.in_use) :
    lookupKey (check_completed_jobs poll now s).jobs jid = some
      { j with status := if rc = 0 then "completed" else "failed",
               error := if rc = 0 then j.error
                        else some ("Process exited with code " ++ toString rc),
               completed_at := some now }
    ∧ g ∈ (check_completed_jobs poll now s).pool.available
    ∧ jid ∉ keysOf (check_completed_jobs poll now s).running := by
  obtain ⟨h1, h2, h3⟩ := check_completed_spec poll now s jid pidv rc hn hmem hpoll hjob
  exact ⟨h1, h3 g hgpu hge (Or.inr hheld), h2⟩

/-- A running job record used in concrete reap scenarios. -/
def jw3 : QueuedJob :=
  { job_id := "w3", output_dir := "/out/w3", script_path := "run.py", args := [],
    submitted_at := "t0", status := "running", started_at := some "t1",
    gpu_id := some "0", pid := some 41 }

/-- A queue state with jw3 running on device "0". -/
def s3w : QueueState :=
  { max_workers := 1,
    pool := { gpu_ids := ["0"], available := [], in_use := [("0", "w3")] },
    queue := [], jobs := [("w3", jw3)], running := [("w3", 41)],
    disk := [("w3", jw3)], state_file := {} }

/-- Poll observation: w3's child exited with code 3. -/
def pollW3 : String → Option Int := fun jd => if jd = "w3" then some 3 else none

theorem reap_exit_code_witness :
    (("w3", 41) ∈ s3w.running ∧ pollW3 "w3" = some 3)
    ∧ (lookupKey (check_completed_jobs pollW3 "t2" s3w).jobs "w3" = some
        { jw3 with status := if (3 : Int) = 0 then "completed" else "failed",
                   error := if (3 : Int) = 0 then jw3.error
                            else some ("Process exited with code " ++ toString (3 : Int)),
                   completed_at := some "t2" }
       ∧ "0" ∈ (check_completed_jobs pollW3 "t2" s3w).pool.available
       ∧ "w3" ∉ keysOf (check_completed_jobs pollW3 "t2" s3w).running) :=
  ⟨⟨by decide, by decide⟩,
   reap_exit_code_determines_terminal_state pollW3 "t2" s3w "w3" 41 3 jw3 "0"
     (by decide) (by decide) (by decide) (by decide) (by decide) (by decide)
     (by decide) (by decide)⟩

/-! ## Claim C1 -/

/-- A running job record for the cancel-then-reap scenario. -/
def j1run : QueuedJob :=
  { job_id := "j1", output_dir := "/out/j1", script_path := "run.py", args := [],
    submitted_at := "t0", status := "running", started_at := some "t1",
    gpu_id := some "0", pid := some 100 }

/-- A queue state with j1run running on device "0". -/
def s1c : QueueState :=
  { max_workers := 1,
    pool := { gpu_ids := ["0"], available := [], in_use := [("0", "j1")] },
    queue := [], jobs := [("j1", j1run)], running := [("j1", 100)],
    disk := [("j1", j1run)], state_file := {} }

/-- Poll observation: j1's terminated child exited with code -15 (SIGTERM). -/
def pollJ1 : String → Option Int := fun jd => if jd = "j1" then some (-15) else none

/-- Claim C1 counterexample: cancelling running job j1 sets its status to
cancelled, but when the worker loop then reaps the terminated process
(_check_completed_jobs observes return code -15) the record transitions
AGAIN, to the terminal state failed — contradicting "it never later
transitions to any other terminal state". -/
theorem cancel_then_reap_overwrites_cancelled :
    ((lookupKey (cancel_job "t1" s1c "j1").2.jobs "j1").map QueuedJob.status
      = some "cancelled")
    ∧ ((lookupKey (check_completed_jobs pollJ1 "t2"
          (cancel_job "t1" s1c "j1").2).jobs "j1").map QueuedJob.status
      = some "failed") := by
  decide

/-- Claim C1 (amended): for every job whose status is running when cancel is
called, the record immediately becomes cancelled with completed_at set; but
the job stays in the running map, and when the worker loop subsequently
reaps the terminated process the record is overwritten to completed (exit 0)
or failed (exit nonzero, with the exit-code error text) and completed_at is
re-stamped — the cancelled state does not survive the reap. -/
theorem cancel_running_sets_cancelled_then_reap_overwrites
    (s : QueueState) (jid : String) (j : QueuedJob) (t1 : String)
    (hjob : lookupKey s.jobs jid = some j) (hst : j.status = "running") :
    (cancel_job t1 s jid).1 = CancelResult.ok ("Job " ++ jid ++ " cancelled (was running)")
    ∧ lookupKey (cancel_job t1 s jid).2.jobs jid
        = some { j with status := "cancelled", completed_at := some t1 }
    ∧ (cancel_job t1 s jid).2.running = s.running
    ∧ ∀ (poll : String → Option Int) (t2 : String) (rc : Int) (pidv : Nat),
        (keysOf (cancel_job t1 s jid).2.running).Nodup →
        (jid, pidv) ∈ (cancel_job t1 s jid).2.running →
        poll jid = some rc →
        lookupKey (check_completed_jobs poll t2 (cancel_job t1 s jid).2).jobs jid
          = some { j with
              status := if rc = 0 then "completed" else "failed",
              error := if rc = 0 then j.error
                       else some ("Process exited with code " ++ toString rc),
              completed_at := some t2 } := by
  have hq : (j.status == "queued") = false := by rw [hst]; decide
  have hr : (j.status == "running") = true := by rw [hst]; decide
  refine ⟨?_, ?_, ?_, ?_⟩
  · simp [cancel_job, hjob, hq, hr]
  · simp [cancel_job, hjob, hq, hr]
  · simp [cancel_job, hjob, hq, hr]
  · intro poll t2 rc pidv hn2 hmem2 hpoll2
    have hjobs2 : lookupKey (cancel_job t1 s jid).2.jobs jid
        = some { j with status := "cancelled", completed_at := some t1 } := by
      simp [cancel_job, hjob, hq, hr]
    exact (check_completed_spec poll t2 (cancel_job t1 s jid).2 jid pidv rc
      hn2 hmem2 hpoll2 hjobs2).1

theorem cancel_running_amended_witness :
    (lookupKey s1c.jobs "j1" = some j1run ∧ j1run.status = "running"
     ∧ pollJ1 "j1" = some (-15))
    ∧ lookupKey (check_completed_jobs pollJ1 "t2" (cancel_job "t1" s1c "j1").2).jobs "j1"
        = some { j1run with
            status := if (-15 : Int) = 0 then "completed" else "failed",
            error := if (-15 : Int) = 0 then j1run.error
                     else some ("Process exited with code " ++ toString (-15 : Int)),
            completed_at := some "t2" } :=
  ⟨⟨by decide, by decide, by decide⟩,
   (cancel_running_sets_cancelled_then_reap_overwrites s1c "j1" j1run "t1"
       (by decide) (by decide)).2.2.2
     pollJ1 "t2" (-15) 100 (by decide) (by decide) (by decide)⟩

/-! ## Claim C7 -/

/-- A running job record for the gpu_id-retention scenario. -/
def jk7 : QueuedJob :=
  { job_id := "k1", output_dir := "/out/k1", script_path := "run.py", args := [],
    submitted_at := "t0", status := "running", started_at := some "t1",
    gpu_id := some "0", pid := some 55 }

/-- A queue state with jk7 running on device "0". -/
def s7c : QueueState :=
  { max_workers := 1,
    pool := { gpu_ids := ["0"], available := [], in_use := [("0", "k1")] },
    queue := [], jobs := [("k1", jk7)], running := [("k1", 55)],
    disk := [("k1", jk7)], state_file := {} }

/-- Poll observation: k1's child exited cleanly with code 0. -/
def pollK7 : String → Option Int := fun jd => if jd = "k1" then some 0 else none

/-- Claim C7 counterexample: after the reap transitions k1 to the terminal
state completed, the record still carries gpu_id = some "0" — the field is
not cleared on the transition out of running, so gpu_id set does not imply
status running. -/
theorem terminal_record_retains_gpu_id :
    ((lookupKey (check_completed_jobs pollK7 "t2" s7c).jobs "k1").map
        (fun j => (j.status, j.gpu_id)))
      = some ("completed", some "0") := by
  decide

/-- Claim C7 (amended): gpu_id is set exactly when a job is started (the
transition to running pins the device in the record), and on a terminal
transition the device itself is released back to the pool — but the record's
gpu_id field is retained, not cleared: a completed, failed or cancelled
record keeps the last held device id. -/
theorem gpu_field_set_on_start_retained_on_terminal :
    (∀ (now : String) (new_pid : Nat) (j : QueuedJob) (g : String),
       (start_job now new_pid j g).status = "running"
       ∧ (start_job now new_pid j g).gpu_id = some g)
    ∧ (∀ (s : QueueState) (jid t1 : String) (j : QueuedJob),
        lookupKey s.jobs jid = some j → j.status = "running" →
        (lookupKey (cancel_job t1 s jid).2.jobs jid).map QueuedJob.gpu_id
          = some j.gpu_id)
    ∧ (∀ (poll : String → Option Int) (now : String) (s : QueueState)
         (jid : String) (pidv : Nat) (rc : Int) (j : QueuedJob) (g : String),
        (keysOf s.running).Nodup → (jid, pidv) ∈ s.running →
        poll jid = some rc → lookupKey s.jobs jid = some j →
        j.gpu_id = some g → g ≠ "" → (g, jid) ∈ s.pool.in_use →
        ∃ j', lookupKey (check_completed_jobs poll now s).jobs jid = some j'
          ∧ j'.status ≠ "running"
          ∧ j'.gpu_id = some g
          ∧ g ∈ (check_completed_jobs poll now s).pool.available) := by
  refine ⟨?_, ?_, ?_⟩
  · intro now new_pid j g
    exact ⟨rfl, rfl⟩
  · intro s jid t1 j hjob hst
    have hq : (j.status == "queued") = false := by rw [hst]; decide
    have hr : (j.status == "running") = true := by rw [hst]; decide
    simp [cancel_job, hjob, hq, hr]
  · intro poll now s jid pidv rc j g hn hmem hpoll hjob hgpu hge hheld
    obtain ⟨h1, h2, h3⟩ := check_completed_spec poll now s jid pidv rc hn hmem hpoll hjob
    refine ⟨reapRecord now j rc, h1, ?_, hgpu, h3 g hgpu hge (Or.inr hheld)⟩
    by_cases hrc : rc = 0 <;> simp [reapRecord, hrc]

theorem gpu_field_witness :
    ((("k1", 55) ∈ s7c.running) ∧ jk7.gpu_id = some "0")
    ∧ ((start_job "t1" 9 jk7 "1").status = "running"
       ∧ (start_job "t1" 9 jk7 "1").gpu_id = some "1")
    ∧ (∃ j', lookupKey (check_completed_jobs pollK7 "t2" s7c).jobs "k1" = some j'
        ∧ j'.status ≠ "running"
        ∧ j'.gpu_id = some "0"
        ∧ "0" ∈ (check_completed_jobs pollK7 "t2" s7c).pool.available) :=
  ⟨⟨by decide, by decide⟩,
   gpu_field_set_on_start_retained_on_terminal.1 "t1" 9 jk7 "1",
   gpu_field_set_on_start_retained_on_terminal.2.2 pollK7 "t2" s7c "k1" 55 0 jk7 "0"
     (by decide) (by decide) (by decide) (by decide) (by decide) (by decide) (by decide)⟩

/-! ## Claim C6 -/

/-- A queued job "a" at the head of the dispatch scenario. -/
def ja6 : QueuedJob :=
  { job_id := "a", output_dir := "/out/a", script_path := "run.py", args := [],
    submitted_at := "t0" }

/-- A queued job "b" behind "a". -/
def jb6 : QueuedJob :=
  { job_id := "b", output_dir := "/out/b", script_path := "run.py", args := [],
    submitted_at := "t0" }

/-- A queue state with two workers, two free devices and two pending jobs:
both head jobs are startable this tick by the claim's reading. -/
def s6c : QueueState :=
  { max_workers := 2,
    pool := { gpu_ids := ["0", "1"], available := ["0", "1"], in_use := [] },
    queue := ["a", "b"], jobs := [("a", ja6), ("b", jb6)], running := [],
    disk := [("a", ja6), ("b", jb6)], state_file := {} }

/-- Claim C6 counterexample: in s6c a single worker tick leaves job "b"
queued even though after dispatching "a" the loop conditions still hold
(running below max_workers, pending non-empty, record present, device free)
— the tick dispatches at most one job, not every startable head job. -/
theorem dispatch_single_tick_leaves_startable_head :
    ((try_start_next_job "t1" 7 true "" s6c).running.length = 1
     ∧ (try_start_next_job "t1" 7 true "" s6c).queue = ["b"]
     ∧ (((try_start_next_job "t1" 7 true "" s6c).running.length : Int)
         < (try_start_next_job "t1" 7 true "" s6c).max_workers)
     ∧ (lookupKey (try_start_next_job "t1" 7 true "" s6c).jobs "b").isSome = true
     ∧ (try_start_next_job "t1" 7 true "" s6c).pool.available ≠ []) := by
  decide

/-- Claim C6 (amended): the dispatch step starts at most one job per worker
tick: it peeks the head; a missing head record is popped and the tick ends
(not continued); when a device is free and the record exists it pops the
head, marks it running with started_at, device and pid, inserts it into the
running map and persists the record — and then returns, leaving any further
startable jobs for later ticks. -/
theorem dispatch_at_most_one_per_tick :
    (∀ (now : String) (new_pid : Nat) (ok : Bool) (err : String) (s : QueueState),
       (try_start_next_job now new_pid ok err s).running.length ≤ s.running.length + 1)
    ∧ (∀ (now : String) (new_pid : Nat) (err : String) (s : QueueState)
         (hd : String) (tl : List String) (j : QueuedJob) (g : String) (gs : List String),
        s.queue = hd :: tl → ((s.running.length : Int) < s.max_workers) →
        lookupKey s.jobs hd = some j → j.job_id = hd → s.pool.available = g :: gs →
        (try_start_next_job now new_pid true err s).queue = tl
        ∧ (try_start_next_job now new_pid true err s).running = setKey s.running hd new_pid
        ∧ lookupKey (try_start_next_job now new_pid true err s).jobs hd
            = some (start_job now new_pid j g)
        ∧ lookupKey (try_start_next_job now new_pid true err s).disk hd
            = some (start_job now new_pid j g)
        ∧ (try_start_next_job now new_pid true err s).pool.available = gs
        ∧ (try_start_next_job now new_pid true err s).pool.in_use
            = setKey s.pool.in_use g hd)
    ∧ (∀ (now : String) (new_pid : Nat) (ok : Bool) (err : String) (s : QueueState)
         (hd : String) (tl : List String),
        s.queue = hd :: tl → ((s.running.length : Int) < s.max_workers) →
        lookupKey s.jobs hd = none →
        try_start_next_job now new_pid ok err s = { s with queue := tl }) := by
  refine ⟨?_, ?_, ?_⟩
  · intro now new_pid ok err s
    by_cases hmw : s.max_workers ≤ (s.running.length : Int)
    · simp [try_start_next_job, hmw]
    · cases hq : s.queue with
      | nil => simp [try_start_next_job, hmw, hq]
      | cons hd tl =>
        cases hj : lookupKey s.jobs hd with
        | none => simp [try_start_next_job, hmw, hq, hj]
        | some j =>
          cases hav : s.pool.available with
          | nil => simp [try_start_next_job, hmw, hq, hj, hav]
          | cons g gs =>
            cases ok with
            | false => simp [try_start_next_job, hmw, hq, hj, hav]
            | true =>
              simp only [try_start_next_job, hmw, hq, hj, hav, if_true, if_false,
                ite_false, save_state_running, save_job_metadata_running]
              exact setKey_length_le s.running hd new_pid
  · intro now new_pid err s hd tl j g gs hq hlt hj hid hav
    have hmw : ¬ s.max_workers ≤ (s.running.length : Int) := not_le.mpr hlt
    refine ⟨?_, ?_, ?_, ?_, ?_, ?_⟩ <;>
      simp [try_start_next_job, hmw, hq, hj, hav, save_job_metadata, start_job, hid]
  · intro now new_pid ok err s hd tl hq hlt hj
    have hmw : ¬ s.max_workers ≤ (s.running.length : Int) := not_le.mpr hlt
    simp [try_start_next_job, hmw, hq, hj]

theorem dispatch_at_most_one_witness :
    (s6c.queue = "a" :: ["b"] ∧ lookupKey s6c.jobs "a" = some ja6
     ∧ s6c.pool.available = "0" :: ["1"]
     ∧ ((s6c.running.length : Int) < s6c.max_workers))
    ∧ (try_start_next_job "t1" 7 true "" s6c).queue = ["b"]
    ∧ (try_start_next_job "t1" 7 true "" s6c).running = setKey s6c.running "a" 7 :=
  ⟨⟨by decide, by decide, by decide, by decide⟩,
   (dispatch_at_most_one_per_tick.2.1 "t1" 7 "" s6c "a" ["b"] ja6 "0" ["1"]
      (by decide) (by decide) (by decide) (by decide) (by decide)).1,
   (dispatch_at_most_one_per_tick.2.1 "t1" 7 "" s6c "a" ["b"] ja6 "0" ["1"]
      (by decide) (by decide) (by decide) (by decide) (by decide)).2.1⟩

/-! ## Claim C4 -/

theorem restore_pending_queue_eq (disk : List (String × QueuedJob)) :
    ∀ (pending : List String) (jobs : List (String × QueuedJob)) (q : List String),
      (restore_pending disk pending jobs q).2
        = q ++ pending.filter (fun jid =>
            match lookupKey disk jid with
            | some j => j.status == "queued"
            | none => false) := by
  intro pending
  induction pending with
  | nil => intro jobs q; simp [restore_pending]
  | cons jid rest ih =>
    intro jobs q
    cases hl : lookupKey disk jid with
    | none => simp [restore_pending, hl, ih, List.filter_cons]
    | some j =>
      by_cases hst : (j.status == "queued") = true
      · simp [restore_pending, hl, hst, ih, List.filter_cons, List.append_assoc]
      · simp only [Bool.not_eq_true] at hst
        simp [restore_pending, hl, hst, ih, List.filter_cons]

theorem fail_running_lookup_notmem (now : String) :
    ∀ (lst : List (String × Option String)) (disk : List (String × QueuedJob)) (jid : String),
      jid ∉ keysOf lst →
      lookupKey (fail_running now disk lst) jid = lookupKey disk jid := by
  intro lst
  induction lst with
  | nil => intro disk jid _; rfl
  | cons a rest ih =>
    intro disk jid h
    obtain ⟨a1, a2⟩ := a
    simp only [keysOf_cons, List.mem_cons] at h
    push_neg at h
    cases hl : lookupKey disk a1 with
    | none => simp only [fail_running, hl]; exact ih disk jid h.2
    | some j =>
      by_cases hst : (j.status == "running") = true
      · simp only [fail_running, hl, hst, if_true]
        rw [ih _ jid h.2, lookupKey_setKey_ne _ _ h.1]
      · simp only [Bool.not_eq_true] at hst
        simp only [fail_running, hl, hst, Bool.false_eq_true, if_false]
        exact ih disk jid h.2

theorem fail_running_lookup_spec (now : String) :
    ∀ (lst : List (String × Option String)) (disk : List (String × QueuedJob))
      (jid : String) (j : QueuedJob),
      (keysOf lst).Nodup → jid ∈ keysOf lst →
      lookupKey disk jid = some j → j.status = "running" →
      lookupKey (fail_running now disk lst) jid = some
        { j with status := "failed",
                 error := some "Server restarted while job was running",
                 completed_at := some now } := by
  intro lst
  induction lst with
  | nil => intro disk jid j _ hmem; cases hmem
  | cons a rest ih =>
    intro disk jid j hn hmem hl hst
    obtain ⟨a1, a2⟩ := a
    rw [keysOf_cons, List.nodup_cons] at hn
    rcases List.mem_cons.mp hmem with rfl | hmem
    · have hstb : (j.status == "running") = true := by rw [hst]; decide
      simp only [fail_running, hl, hstb, if_true]
      rw [fail_running_lookup_notmem now rest _ jid hn.1]
      exact lookupKey_setKey_self _ _ _
    · have hne : jid ≠ a1 := fun he => hn.1 (he ▸ hmem)
      cases hla : lookupKey disk a1 with
      | none =>
        simp only [fail_running, hla]
        exact ih disk jid j hn.2 hmem hl hst
      | some ja =>
        by_cases hsta : (ja.status == "running") = true
        · simp only [fail_running, hla, hsta, if_true]
          refine ih _ jid j hn.2 hmem ?_ hst
          rw [lookupKey_setKey_ne _ _ hne]
          exact hl
        · simp only [Bool.not_eq_true] at hsta
          simp only [fail_running, hla, hsta, Bool.false_eq_true, if_false]
          exact ih disk jid j hn.2 hmem hl hst

/-- Claim C4: on construction with an existing queue-state file, the pending
ids whose persisted records are still "queued" are re-inserted into the
in-memory pending queue in their original order (exactly the filter of the
persisted pending list); every running-listed id whose record is still
"running" is rewritten on disk as failed with the restart-marker error and
completed_at = now; and the constructed queue holds no device for any job
(the pool starts all-free and the running map empty). -/
theorem load_state_restores_pending_and_fails_running
    (sf : StateFile) (disk : List (String × QueuedJob)) (now : String) :
    ((load_state sf disk now).1.2
      = sf.pending_jobs.filter (fun jid =>
          match lookupKey disk jid with
          | some j => j.status == "queued"
          | none => false))
    ∧ (∀ (jid : String) (j : QueuedJob),
        (keysOf sf.running_jobs).Nodup → jid ∈ keysOf sf.running_jobs →
        lookupKey disk jid = some j → j.status = "running" →
        lookupKey (load_state sf disk now).2 jid = some
          { j with status := "failed",
                   error := some "Server restarted while job was running",
                   completed_at := some now })
    ∧ (∀ (mw : Int) (gids : Option (List String)) (det : List String)
         (sfo : Option StateFile) (dsk : List (String × QueuedJob)) (n : String),
        (init_queue mw gids det sfo dsk n).pool.in_use = []
        ∧ (init_queue mw gids det sfo dsk n).running = []) := by
  refine ⟨?_, ?_, ?_⟩
  · simpa using restore_pending_queue_eq disk sf.pending_jobs [] []
  · intro jid j hn hmem hl hst
    exact fail_running_lookup_spec now sf.running_jobs disk jid j hn hmem hl hst
  · intro mw gids det sfo dsk n
    cases sfo <;> exact ⟨rfl, rfl⟩

/-- A persisted queued record for the recovery scenario. -/
def jp4 : QueuedJob :=
  { job_id := "p1", output_dir := "/out/p1", script_path := "run.py", args := [],
    submitted_at := "t0" }

/-- A persisted running record for the recovery scenario. -/
def jr4 : QueuedJob :=
  { job_id := "r1", output_dir := "/out/r1", script_path := "run.py", args := [],
    submitted_at := "t0", status := "running", started_at := some "t1",
    gpu_id := some "0", pid := some 77 }

/-- The on-disk metadata before the restart. -/
def disk4 : List (String × QueuedJob) := [("p1", jp4), ("r1", jr4)]

/-- The persisted queue_state.json before the restart: p1 pending (plus a
stale id with no record), r1 running on device "0". -/
def sf4 : StateFile :=
  { max_workers := 1, gpu_ids := ["0"], pending_jobs := ["p1", "ghost"],
    running_jobs := [("r1", some "0")] }

theorem load_state_witness :
    ((keysOf sf4.running_jobs).Nodup ∧ lookupKey disk4 "r1" = some jr4
     ∧ jr4.status = "running")
    ∧ ((load_state sf4 disk4 "t9").1.2
        = sf4.pending_jobs.filter (fun jid =>
            match lookupKey disk4 jid with
            | some j => j.status == "queued"
            | none => false)
       ∧ lookupKey (load_state sf4 disk4 "t9").2 "r1" = some
          { jr4 with status := "failed",
                     error := some "Server restarted while job was running",
                     completed_at := some "t9" }) :=
  ⟨⟨by decide, by decide, by decide⟩,
   (load_state_restores_pending_and_fails_running sf4 disk4 "t9").1,
   (load_state_restores_pending_and_fails_running sf4 disk4 "t9").2.1 "r1" jr4
     (by decide) (by decide) (by decide) (by decide)⟩

/-! ## Claim C5 -/

/-- Claim C5: for every positive k and non-empty device list D, reconfiguring
the queue with max_workers = k and device_ids = D (configure_queue rebuilds
the JobQueue) and then querying queue status yields max_workers = min k |D|
and total devices = |D| — max_workers is clamped to the pool size on
construction. -/
theorem reconfigure_clamps_max_workers
    (k : Int) (D detected : List String) (sf : Option StateFile)
    (disk : List (String × QueuedJob)) (now : String)
    (hk : 0 < k) (hD : D ≠ []) :
    (get_queue_status (init_queue k (some D) detected sf disk now)).max_workers
      = min k (D.length : Int)
    ∧ (get_queue_status (init_queue k (some D) detected sf disk now)).total_gpus
      = D.length := by
  have hDe : D.isEmpty = false := by
    cases D with
    | nil => exact absurd rfl hD
    | cons a t => rfl
  constructor
  · cases sf <;>
    · simp only [init_queue, get_queue_status, GPUPool.init, hDe, Bool.false_eq_true,
        if_false]
      rw [min_def]
      split_ifs <;> omega
  · cases sf <;> simp [init_queue, get_queue_status, GPUPool.init, hDe]

theorem reconfigure_clamps_witness :
    ((0 : Int) < 8 ∧ (["0", "1"] : List String) ≠ [])
    ∧ (get_queue_status (init_queue 8 (some ["0", "1"]) [] none [] "t0")).max_workers
        = min 8 ((["0", "1"] : List String).length : Int)
    ∧ (get_queue_status (init_queue 8 (some ["0", "1"]) [] none [] "t0")).total_gpus
        = (["0", "1"] : List String).length :=
  ⟨⟨by decide, by decide⟩,
   (reconfigure_clamps_max_workers 8 ["0", "1"] [] none [] "t0" (by decide) (by decide)).1,
   (reconfigure_clamps_max_workers 8 ["0", "1"] [] none [] "t0" (by decide) (by decide)).2⟩

/-! ## Claim C9 -/

/-- An idle queue state for the bad-protocol scenario. -/
def s9w : QueueState :=
  { max_workers := 1,
    pool := { gpu_ids := ["0"], available := ["0"], in_use := [] },
    queue := [], jobs := [], running := [], disk := [], state_file := {} }

/-- Claim C9 counterexample: with the out-of-set protocol "bogus",
boltzgen_submit does not return a {status := "error", error_message} dict —
the ValueError from _validate_protocol is raised before the try-block, so
the call raises; the queue state is untouched. -/
theorem submit_bad_protocol_raises_not_error_dict :
    ((boltzgen_submit "bogus" "c.yaml" "/out" 10 2 true true "t0" "id1" s9w).1).isRaised
        = true
    ∧ (boltzgen_submit "bogus" "c.yaml" "/out" 10 2 true true "t0" "id1" s9w).2 = s9w := by
  decide

/-- Claim C9 (amended): for every submit or run call whose protocol argument
is outside the closed protocol set, _validate_protocol raises a ValueError
before the try-block, so the call fails synchronously by raising (the
message propagates to the RPC layer) rather than by returning the
{status := "error", error_message} dict; no queue mutation occurs — nothing
is enqueued and no record is created. -/
theorem bad_protocol_raises_and_no_queue_mutation
    (protocol : String) (hp : protocol ∉ valid_protocols) :
    ∀ (config output : String) (nd b : Int) (ce se : Bool) (now jid : String)
      (s : QueueState) (rc : Int) (dc : Nat),
      ∃ m, validate_protocol protocol = Except.error m
        ∧ boltzgen_submit protocol config output nd b ce se now jid s
            = (Outcome.raised m, s)
        ∧ boltzgen_run protocol config ce se rc dc = Outcome.raised m := by
  intro config output nd b ce se now jid s rc dc
  have hv : validate_protocol protocol = Except.error ("Invalid protocol: " ++ protocol
      ++ ". Must be one of: " ++ String.intercalate ", " valid_protocols ++ "\n"
      ++ String.intercalate "\n"
        (PROTOCOL_DESCRIPTIONS.map (fun kv => "  - " ++ kv.1 ++ ": " ++ kv.2))) := by
    simp [validate_protocol, hp]
  exact ⟨_, hv, by simp [boltzgen_submit, hv], by simp [boltzgen_run, hv]⟩

theorem bad_protocol_witness :
    ("bogus" ∉ valid_protocols)
    ∧ (boltzgen_submit "bogus" "c2.yaml" "/out2" 5 1 true true "t3" "id2" s9w).2 = s9w
    ∧ ((boltzgen_submit "bogus" "c2.yaml" "/out2" 5 1 true true "t3" "id2" s9w).1).isRaised
        = true
    ∧ (boltzgen_run "bogus" "c2.yaml" true true 0 4).isRaised = true := by
  obtain ⟨m, hv, hs, hr⟩ := bad_protocol_raises_and_no_queue_mutation "bogus" (by decide)
    "c2.yaml" "/out2" 5 1 true true "t3" "id2" s9w 0 4
  refine ⟨by decide, ?_, ?_, ?_⟩
  · rw [hs]
  · rw [hs]; rfl
  · rw [hr]; rfl

/-! ## Claim C10 -/

/-- Claim C10: cancel consults only the in-memory job map — for a job id
absent from memory, even when its metadata.json record exists on disk,
cancel returns the not-found error (and leaves the state unchanged), while
job_status for the same id succeeds by falling back to the on-disk record. -/
theorem cancel_memory_only_but_status_falls_back_to_disk
    (s : QueueState) (jid now : String) (j : QueuedJob)
    (hmem : lookupKey s.jobs jid = none) (hdisk : lookupKey s.disk jid = some j) :
    (cancel_job now s jid).1 = CancelResult.err ("Job " ++ jid ++ " not found")
    ∧ (cancel_job now s jid).2 = s
    ∧ ((get_job_status s jid).1).jobStatus? = some j.status := by
  refine ⟨?_, ?_, ?_⟩
  · simp [cancel_job, hmem]
  · simp [cancel_job, hmem]
  · simp [get_job_status, hmem, hdisk, JobStatusResult.jobStatus?]

/-- A terminal record present only on disk (evicted from memory). -/
def j10 : QueuedJob :=
  { job_id := "z9", output_dir := "/out/z9", script_path := "run.py", args := [],
    submitted_at := "t0", status := "completed", started_at := some "t1",
    completed_at := some "t2", gpu_id := some "0", pid := some 12 }

/-- A queue state whose memory map is empty but whose disk still has j10. -/
def s10 : QueueState :=
  { max_workers := 1,
    pool := { gpu_ids := ["0"], available := ["0"], in_use := [] },
    queue := [], jobs := [], running := [], disk := [("z9", j10)], state_file := {} }

theorem cancel_memory_only_witness :
    (lookupKey s10.jobs "z9" = none ∧ lookupKey s10.disk "z9" = some j10)
    ∧ ((cancel_job "t3" s10 "z9").1 = CancelResult.err ("Job " ++ "z9" ++ " not found")
       ∧ ((get_job_status s10 "z9").1).jobStatus? = some j10.status) :=
  ⟨⟨by decide, by decide⟩,
   (cancel_memory_only_but_status_falls_back_to_disk s10 "z9" "t3" j10
      (by decide) (by decide)).1,
   (cancel_memory_only_but_status_falls_back_to_disk s10 "z9" "t3" j10
      (by decide) (by decide)).2.2⟩
